import Mathlib

/-!
Verification of the mini-table "Paginated Edit-Overlay Controller".

The definitions below are a shallow embedding of the TypeScript source:
the table-editor component (row type `CustomerRow`, the remote-record
mapper `mapRemoteToCustomer`, the edit-overlay cache and `applyEdits`,
the pagination action `loadMore`, the cell mutation `updateCell`, the
row creation `addNewRow`, the fetch life-cycle) and the editable-cell
commit logic of the column definitions (`commit`, `stateValidate`).
JavaScript's ambient clock (`Date.now()`) is made an explicit `now : Int`
parameter (milliseconds since the epoch); JavaScript string truthiness
is modelled by `truthy` over `Option String` (absent or empty is falsy).
-/

set_option autoImplicit false

namespace MiniTable

/-- Column keys of `CustomerRow` that hold string values.  These are the
keys `updateCell` can be called with (the optional boolean `isNew` flag is
not a cell column and is never written through `updateCell`). -/
inductive ColKey where
  | id
  | bio
  | name
  | language
  | version
  | state
  | createdDate
deriving DecidableEq

/-- Embedding of the `CustomerRow` interface.  The `version` union type is
embedded as `String`; `isNew?: boolean` becomes a `Bool` that defaults to
`false` (absent). -/
structure CustomerRow where
  id : String
  bio : String
  name : String
  language : String
  version : String
  state : String
  createdDate : String
  isNew : Bool := false
deriving DecidableEq

instance : Inhabited CustomerRow :=
  ⟨{ id := "", bio := "", name := "", language := "", version := "",
     state := "", createdDate := "", isNew := false }⟩

/-- Embedding of `Partial<CustomerRow>`: an overlay entry, any subset of
the row's fields with new values (the shape stored in the edit cache). -/
structure PartialRow where
  id : Option String := none
  bio : Option String := none
  name : Option String := none
  language : Option String := none
  version : Option String := none
  state : Option String := none
  createdDate : Option String := none
  isNew : Option Bool := none
deriving DecidableEq

/-- Read one string field of an overlay entry. -/
def PartialRow.get (p : PartialRow) (k : ColKey) : Option String :=
  match k with
  | .id => p.id
  | .bio => p.bio
  | .name => p.name
  | .language => p.language
  | .version => p.version
  | .state => p.state
  | .createdDate => p.createdDate

/-- Embedding of the computed-property merge in `updateCell`:
the object spread with a single computed key set to a new value. -/
def PartialRow.set (p : PartialRow) (k : ColKey) (v : String) : PartialRow :=
  match k with
  | .id => { p with id := some v }
  | .bio => { p with bio := some v }
  | .name => { p with name := some v }
  | .language => { p with language := some v }
  | .version => { p with version := some v }
  | .state => { p with state := some v }
  | .createdDate => { p with createdDate := some v }

/-- Embedding of the object spread of an overlay entry over a row,
`\x7b ...r, ...entry \x7d`: every field present in the entry wins, every
absent field keeps the row's value. -/
def CustomerRow.merge (r : CustomerRow) (p : PartialRow) : CustomerRow :=
  { id := p.id.getD r.id
    bio := p.bio.getD r.bio
    name := p.name.getD r.name
    language := p.language.getD r.language
    version := p.version.getD r.version
    state := p.state.getD r.state
    createdDate := p.createdDate.getD r.createdDate
    isNew := p.isNew.getD r.isNew }

/-- Embedding of the in-place row update in `updateCell`:
`\x7b ...r, [key]: value \x7d` for a single string-valued column key. -/
def CustomerRow.setCol (r : CustomerRow) (k : ColKey) (v : String) : CustomerRow :=
  match k with
  | .id => { r with id := v }
  | .bio => { r with bio := v }
  | .name => { r with name := v }
  | .language => { r with language := v }
  | .version => { r with version := v }
  | .state => { r with state := v }
  | .createdDate => { r with createdDate := v }

/-- JavaScript string truthiness for an optional string field of a raw
remote record: present and non-empty. -/
def truthy (o : Option String) : Bool :=
  match o with
  | some s => !(s == "")
  | none => false

/-- Embedding of JavaScript `String.prototype.trim`: drop whitespace from
both ends of the string. -/
def strTrim (s : String) : String :=
  ⟨((s.data.dropWhile Char.isWhitespace).reverse.dropWhile Char.isWhitespace).reverse⟩

/-- The value of a raw record's `name` property: either a plain string or
an object with optional `first` and `last` parts. -/
inductive NameVal where
  | str (s : String)
  | obj (first last : Option String)
deriving DecidableEq

/-- Embedding of the raw remote record shape (`RemoteRow`), restricted to
the properties the mapper reads. -/
structure RemoteRow where
  guid : Option String := none
  id : Option String := none
  _id : Option String := none
  name : Option NameVal := none
  username : Option String := none
  email : Option String := none
  bio : Option String := none
  company : Option String := none
  eyeColor : Option String := none
  favoriteFruit : Option String := none
deriving DecidableEq

def RANDOM_STATES : List String :=
  ["CA", "NY", "TX", "FL", "IL", "PA", "OH", "GA", "NC", "MI"]

def RANDOM_VERSIONS : List String :=
  ["new customer", "served", "to contact", "pause"]

/-- Left-pad a number to two digits. -/
def pad2 (n : Nat) : String :=
  if n < 10 then "0" ++ toString n else toString n

/-- Left-pad a number to four digits. -/
def pad4 (n : Nat) : String :=
  if n < 10 then "000" ++ toString n
  else if n < 100 then "00" ++ toString n
  else if n < 1000 then "0" ++ toString n
  else toString n

/-- Proleptic-Gregorian civil date (year, month, day) from a count of days
since 1970-01-01 (the standard days-from-civil inversion, as computed by
the JavaScript `Date` object). -/
def civilFromDays (z : Int) : Int × Nat × Nat :=
  let zs : Int := z + 719468
  let era : Int := zs.fdiv 146097
  let doe : Nat := (zs - era * 146097).toNat
  let yoe : Nat := (doe - doe / 1460 + doe / 36524 - doe / 146096) / 365
  let y : Int := (yoe : Int) + era * 400
  let doy : Nat := doe - (365 * yoe + yoe / 4 - yoe / 100)
  let mp : Nat := (5 * doy + 2) / 153
  let d : Nat := doy - (153 * mp + 2) / 5 + 1
  let m : Nat := if mp < 10 then mp + 3 else mp - 9
  (if m ≤ 2 then y + 1 else y, m, d)

/-- Embedding of
`new Date(ms).toISOString().slice(0, 19).replace("T", " ")`:
the UTC timestamp of `ms` milliseconds since the epoch rendered as
`YYYY-MM-DD HH:MM:SS` (for dates whose year fits the plain four-digit
ISO format, which covers every use in this development). -/
def isoFormat (ms : Int) : String :=
  let s : Int := ms.fdiv 1000
  let days : Int := s.fdiv 86400
  let sod : Nat := (s - days * 86400).toNat
  let ymd := civilFromDays days
  pad4 ymd.1.toNat ++ "-" ++ pad2 ymd.2.1 ++ "-" ++ pad2 ymd.2.2 ++ " " ++
    pad2 (sod / 3600) ++ ":" ++ pad2 (sod % 3600 / 60) ++ ":" ++ pad2 (sod % 60)

/-- Fallback tail of the name derivation:
`item.username || item.email || ("User " + idx)`. -/
def nameFallback (item : RemoteRow) (idx : Nat) : String :=
  if truthy item.username then item.username.getD ""
  else if truthy item.email then item.email.getD ""
  else "User " ++ toString idx

/-- Embedding of `mapRemoteToCustomer`.  The ambient clock read
(`Date.now()`) is the explicit first argument `now`, in milliseconds. -/
def mapRemoteToCustomer (now : Int) (item : RemoteRow) (idx : Nat) : CustomerRow :=
  let id :=
    if truthy item.guid then item.guid.getD ""
    else if truthy item.id then item.id.getD ""
    else if truthy item._id then item._id.getD ""
    else toString idx
  let name :=
    match item.name with
    | some (NameVal.str s) => if s ≠ "" then s else nameFallback item idx
    | some (NameVal.obj f l) =>
        if truthy f || truthy l then strTrim ((f.getD "") ++ " " ++ (l.getD ""))
        else nameFallback item idx
    | none => nameFallback item idx
  let bio := if truthy item.bio then item.bio.getD "" else ""
  let language :=
    if truthy item.company then item.company.getD ""
    else if truthy item.eyeColor then item.eyeColor.getD ""
    else if truthy item.favoriteFruit then item.favoriteFruit.getD ""
    else ""
  let state := RANDOM_STATES.getD (idx % RANDOM_STATES.length) ""
  let createdDate := isoFormat (now - ((idx % 365 : Nat) : Int) * (24 * 60 * 60 * 1000))
  let version := RANDOM_VERSIONS.getD (idx % RANDOM_VERSIONS.length) ""
  { id := id, name := name, bio := bio, language := language, state := state,
    createdDate := createdDate, version := version }

/-- Embedding of the `EditCache` type, the edit-overlay store:
`Record<string, Partial<CustomerRow>>` as a map from row id to entry. -/
def EditCache : Type := String → Option PartialRow

/-- The empty overlay store (no persisted edits). -/
def emptyCache : EditCache := fun _ => none

def PAGE_SIZE : Nat := 40

/-- Embedding of `applyEdits`: map each row to itself spread with its
overlay entry (or with the empty object when no entry exists). -/
def applyEdits (c : EditCache) (rows : List CustomerRow) : List CustomerRow :=
  rows.map (fun r => r.merge ((c r.id).getD {}))

/-- The component state of `TableEditor` relevant to the claims:
the full record set, the visible page, the loading and error flags, the
has-more flag and the edit-overlay cache. -/
structure TableState where
  allRows : List CustomerRow
  data : List CustomerRow
  isLoading : Bool
  isError : Option String
  hasMore : Bool
  editCache : EditCache

/-- The initial component state: empty record set and visible page,
`isLoading` false, no error, `hasMore` true, and the overlay cache as
loaded from durable storage (a parameter here). -/
def initState (c : EditCache) : TableState :=
  { allRows := [], data := [], isLoading := false, isError := none,
    hasMore := true, editCache := c }

/-- The start of a fetch cycle: `setIsLoading(true); setIsError(null)`. -/
def fetchStart (s : TableState) : TableState :=
  { s with isLoading := true, isError := none }

/-- The successful completion of a fetch: store the mapped record set,
show its overlay-merged first page, and set `hasMore` when the set is
strictly larger than one page; the `finally` clause resets `isLoading`. -/
def fetchSuccess (s : TableState) (mapped : List CustomerRow) : TableState :=
  let s1 := fetchStart s
  { s1 with
    allRows := mapped,
    data := applyEdits s1.editCache (mapped.take PAGE_SIZE),
    hasMore := decide (PAGE_SIZE < mapped.length),
    isLoading := false }

/-- The failed completion of a fetch: the catch clause records the error
message and the `finally` clause resets `isLoading`; no row state is
touched. -/
def fetchFailure (s : TableState) (msg : String) : TableState :=
  let s1 := fetchStart s
  { s1 with isError := some msg, isLoading := false }

/-- The message thrown for a non-2xx response status. -/
def httpErrorMessage (status : Nat) : String :=
  "HTTP " ++ toString status

/-- Embedding of `loadMore`: take the next page-sized slice of the full
set starting at the current visible length; an empty slice leaves the
page untouched, otherwise the overlay-merged slice is appended and
`hasMore` is cleared once the visible length reaches the full length. -/
def loadMore (s : TableState) : TableState :=
  let nextIndex := s.data.length
  let nextSlice := (s.allRows.drop nextIndex).take PAGE_SIZE
  if nextSlice.isEmpty then
    { s with isLoading := false }
  else
    let merged := s.data ++ applyEdits s.editCache nextSlice
    { s with
      data := merged,
      hasMore := if s.allRows.length ≤ merged.length then false else s.hasMore,
      isLoading := false }

/-- Embedding of `updateCell`: merge the single-field change into the
row's overlay entry (creating the entry when absent) and update the
matching visible row in place. -/
def updateCell (s : TableState) (rowId : String) (key : ColKey) (value : String) :
    TableState :=
  { s with
    editCache := fun rid =>
      if rid = rowId then some (((s.editCache rowId).getD {}).set key value)
      else s.editCache rid,
    data := s.data.map (fun r => if r.id = rowId then r.setCol key value else r) }

/-- The locally synthesized row created by `addNewRow`, with the clock
reading `now` supplying both the id suffix and the timestamp. -/
def newRow (now : Int) : CustomerRow :=
  { id := "new-" ++ toString now, bio := "", name := "", language := "",
    version := "new customer", state := "",
    createdDate := isoFormat now, isNew := true }

/-- Embedding of `addNewRow`: prepend a fresh unsaved row to the visible
page; no other state is touched. -/
def addNewRow (s : TableState) (now : Int) : TableState :=
  { s with data := newRow now :: s.data }

/-- Prepend several new rows in sequence (one `addNewRow` per clock
reading in `ns`). -/
def addNewRowsList (s : TableState) (ns : List Int) : TableState :=
  ns.foldl addNewRow s

/-- The state of one editable cell: the input value, the editing flag and
the inline error message (empty when none). -/
structure CellState where
  value : String
  editing : Bool
  error : String
deriving DecidableEq

/-- JavaScript `a || b` for an optional string against a default:
a present non-empty string wins, otherwise the default. -/
def jsOr (o : Option String) (d : String) : String :=
  match o with
  | some m => if m ≠ "" then m else d
  | none => d

/-- Embedding of `EditableTextCell`'s `commit`: without an `updateCell`
callback just leave editing; otherwise run the optional validator on the
candidate value, and on failure set the inline error and stay put, on
success clear the error, write through `updateCell` and leave editing. -/
def commit (updateCellPresent : Bool) (validate : Option (String → Bool))
    (errorMessage : Option String) (rowId : String) (columnKey : ColKey)
    (cs : CellState) (s : TableState) : CellState × TableState :=
  if !updateCellPresent then ({ cs with editing := false }, s)
  else
    let ok := match validate with
      | some v => v cs.value
      | none => true
    if !ok then ({ cs with error := jsOr errorMessage "Invalid value" }, s)
    else ({ cs with error := "", editing := false },
          updateCell s rowId columnKey cs.value)

/-- Embedding of the state column's validator,
`/^[A-Z]\x7b2\x7d$/.test(v.trim())`: the trimmed value is exactly two
ASCII uppercase letters. -/
def stateValidate (v : String) : Bool :=
  match (strTrim v).toList with
  | [c1, c2] => (decide ('A' ≤ c1) && decide (c1 ≤ 'Z')) &&
                (decide ('A' ≤ c2) && decide (c2 ≤ 'Z'))
  | _ => false

/-- A list of `n` distinct bare rows, used to instantiate the pagination
scenarios on concrete inputs. -/
def sampleRows (n : Nat) : List CustomerRow :=
  (List.range n).map (fun i =>
    { id := toString i, bio := "", name := "", language := "",
      version := "new customer", state := "", createdDate := "" })

/-- A sparse overlay cache with one entry, used to instantiate the
overlay claims on concrete inputs. -/
def sampleCache : EditCache := fun rid =>
  if rid = "0" then some { bio := some "zz" } else none

/-! ### Basic lemmas about the overlay merge -/

@[simp]
lemma applyEdits_length (c : EditCache) (rows : List CustomerRow) :
    (applyEdits c rows).length = rows.length := by
  simp [applyEdits]

lemma getD_getD {α : Type} (o : Option α) (a : α) :
    o.getD (o.getD a) = o.getD a := by
  cases o <;> rfl

@[simp]
lemma merge_default (r : CustomerRow) : r.merge {} = r := rfl

lemma merge_merge_self (r : CustomerRow) (p : PartialRow) :
    (r.merge p).merge p = r.merge p := by
  simp [CustomerRow.merge, getD_getD]

lemma merge_id (r : CustomerRow) (p : PartialRow) :
    (r.merge p).id = p.id.getD r.id := rfl

lemma PartialRow.get_set_self (p : PartialRow) (k : ColKey) (v : String) :
    (p.set k v).get k = some v := by
  cases k <;> rfl

lemma PartialRow.get_set_of_ne (p : PartialRow) (k k' : ColKey) (v : String)
    (h : k ≠ k') : (p.set k' v).get k = p.get k := by
  cases k <;> cases k' <;> simp_all [PartialRow.set, PartialRow.get]

lemma jsOr_ne_of_ne (o : Option String) (d : String) (hd : d ≠ "") :
    jsOr o d ≠ "" := by
  cases o with
  | none => simpa [jsOr] using hd
  | some m =>
    simp only [jsOr]
    split
    · assumption
    · exact hd

/-! ### Basic lemmas about pagination -/

@[simp]
lemma loadMore_isLoading (s : TableState) : (loadMore s).isLoading = false := by
  simp only [loadMore]
  split <;> rfl

@[simp]
lemma loadMore_allRows (s : TableState) : (loadMore s).allRows = s.allRows := by
  simp only [loadMore]
  split <;> rfl

@[simp]
lemma loadMore_editCache (s : TableState) : (loadMore s).editCache = s.editCache := by
  simp only [loadMore]
  split <;> rfl

lemma loadMore_of_exhausted (s : TableState) (h : s.allRows.length ≤ s.data.length) :
    loadMore s = { s with isLoading := false } := by
  have hd : s.allRows.drop s.data.length = [] := List.drop_eq_nil_of_le h
  simp [loadMore, hd]

lemma slice_not_empty (s : TableState) (h : s.data.length < s.allRows.length) :
    ((s.allRows.drop s.data.length).take PAGE_SIZE).isEmpty = false := by
  have hlen : ((s.allRows.drop s.data.length).take PAGE_SIZE).length =
      min PAGE_SIZE (s.allRows.length - s.data.length) := by
    simp
  have hpos : 0 < ((s.allRows.drop s.data.length).take PAGE_SIZE).length := by
    rw [hlen]
    simp [PAGE_SIZE]
    omega
  cases he : (s.allRows.drop s.data.length).take PAGE_SIZE with
  | nil => rw [he] at hpos; simp at hpos
  | cons a l => rfl

lemma loadMore_data_of_lt (s : TableState) (h : s.data.length < s.allRows.length) :
    (loadMore s).data =
      s.data ++ applyEdits s.editCache ((s.allRows.drop s.data.length).take PAGE_SIZE) := by
  simp [loadMore, slice_not_empty s h]

lemma loadMore_data_length_of_lt (s : TableState) (h : s.data.length < s.allRows.length) :
    (loadMore s).data.length =
      s.data.length + min PAGE_SIZE (s.allRows.length - s.data.length) := by
  rw [loadMore_data_of_lt s h]
  simp

lemma loadMore_hasMore_of_lt (s : TableState) (h : s.data.length < s.allRows.length) :
    (loadMore s).hasMore =
      if s.allRows.length ≤ s.data.length + min PAGE_SIZE (s.allRows.length - s.data.length)
      then false else s.hasMore := by
  simp [loadMore, slice_not_empty s h]

lemma setLoading_false_eq (s : TableState) (h : s.isLoading = false) :
    { s with isLoading := false } = s := by
  rw [← h]

/-! ### Basic lemmas about row creation -/

@[simp]
lemma addNewRowsList_allRows (s : TableState) (ns : List Int) :
    (addNewRowsList s ns).allRows = s.allRows := by
  induction ns generalizing s with
  | nil => rfl
  | cons n ns ih => simpa [addNewRowsList, addNewRow] using ih (addNewRow s n)

@[simp]
lemma addNewRowsList_editCache (s : TableState) (ns : List Int) :
    (addNewRowsList s ns).editCache = s.editCache := by
  induction ns generalizing s with
  | nil => rfl
  | cons n ns ih => simpa [addNewRowsList, addNewRow] using ih (addNewRow s n)

@[simp]
lemma addNewRowsList_hasMore (s : TableState) (ns : List Int) :
    (addNewRowsList s ns).hasMore = s.hasMore := by
  induction ns generalizing s with
  | nil => rfl
  | cons n ns ih => simpa [addNewRowsList, addNewRow] using ih (addNewRow s n)

@[simp]
lemma addNewRowsList_data_length (s : TableState) (ns : List Int) :
    (addNewRowsList s ns).data.length = s.data.length + ns.length := by
  induction ns generalizing s with
  | nil => rfl
  | cons n ns ih =>
    have := ih (addNewRow s n)
    simp [addNewRowsList, addNewRow] at this ⊢
    omega

/-! ### Claim theorems -/

/-- C2: for every row id and fields f1 ≠ f2, performing set(r, f1, v1) and
then set(r, f2, v2) through `updateCell` leaves both bindings f1 ↦ v1 and
f2 ↦ v2 present in the final overlay entry for r: the overlay merge is
field-level, and a later single-field edit never erases an earlier
unrelated field's value. -/
theorem updateCell_field_level_merge (s : TableState) (rowId : String)
    (f1 f2 : ColKey) (v1 v2 : String) (h : f1 ≠ f2) :
    ∃ p, (updateCell (updateCell s rowId f1 v1) rowId f2 v2).editCache rowId = some p
      ∧ p.get f1 = some v1 ∧ p.get f2 = some v2 := by
  refine ⟨((((s.editCache rowId).getD {}).set f1 v1).set f2 v2), ?_, ?_, ?_⟩
  · simp [updateCell]
  · rw [PartialRow.get_set_of_ne _ _ _ _ h, PartialRow.get_set_self]
  · rw [PartialRow.get_set_self]

/-- Witness for C2 at rowId "r1", fields bio and name. -/
theorem updateCell_field_level_merge_witness :
    ColKey.bio ≠ ColKey.name ∧
    ∃ p, (updateCell (updateCell (initState emptyCache) "r1" ColKey.bio "a")
            "r1" ColKey.name "b").editCache "r1" = some p
      ∧ p.get ColKey.bio = some "a" ∧ p.get ColKey.name = some "b" :=
  ⟨by decide,
   updateCell_field_level_merge (initState emptyCache) "r1"
     ColKey.bio ColKey.name "a" "b" (by decide)⟩

/-- C5: `applyEdits` is the identity on every row whose id has no entry in
the edit-overlay cache: all fields of such a row are returned unchanged at
its position. -/
theorem applyEdits_id_on_missing_entry (c : EditCache) (rows : List CustomerRow)
    (i : Nat) (h : i < rows.length)
    (hc : c (rows.getD i default).id = none) :
    (applyEdits c rows).getD i default = rows.getD i default := by
  have h2 : i < (applyEdits c rows).length := by simpa using h
  rw [List.getD_eq_getElem _ _ h2, List.getD_eq_getElem _ _ h]
  rw [List.getD_eq_getElem _ _ h] at hc
  simp only [applyEdits, List.getElem_map]
  rw [hc]
  exact merge_default _

/-- Witness for C5: row at index 1 of a three-row list, with a cache that
only has an entry for the id of row 0. -/
theorem applyEdits_id_on_missing_entry_witness :
    1 < (sampleRows 3).length
    ∧ sampleCache ((sampleRows 3).getD 1 default).id = none
    ∧ (applyEdits sampleCache (sampleRows 3)).getD 1 default
        = (sampleRows 3).getD 1 default :=
  ⟨by decide, by decide,
   applyEdits_id_on_missing_entry sampleCache (sampleRows 3) 1 (by decide) (by decide)⟩

/-- An overlay cache whose entry for "X" rewrites the row id itself, and
which also has an entry for the rewritten id "Y".  `Partial<CustomerRow>`
admits such entries, and the persisted overlay is parsed without any
validation, so this is a representable overlay state. -/
def idRewritingCache : EditCache := fun rid =>
  if rid = "X" then some { id := some "Y" }
  else if rid = "Y" then some { bio := some "b2" } else none

/-- A concrete base row with id "X". -/
def rowX : CustomerRow :=
  { id := "X", bio := "b0", name := "n", language := "l",
    version := "served", state := "CA", createdDate := "d" }

/-- C6 counterexample: with an overlay entry that rewrites a row's id to
an id that itself has an overlay entry, applying the overlay twice does
not equal applying it once. -/
theorem applyEdits_not_idempotent :
    applyEdits idRewritingCache (applyEdits idRewritingCache [rowX])
      ≠ applyEdits idRewritingCache [rowX] := by
  decide

/-- C6 amended: overlay application is idempotent for every overlay in
which no entry overrides the id field (in particular for every overlay
written through `updateCell` with non-id column keys): applying such an
overlay twice yields the same merged records as applying it once. -/
theorem applyEdits_idem_of_no_id_override (c : EditCache) (rows : List CustomerRow)
    (h : ∀ rid p, c rid = some p → p.id = none) :
    applyEdits c (applyEdits c rows) = applyEdits c rows := by
  unfold applyEdits
  rw [List.map_map]
  refine List.map_congr_left ?_
  intro r _
  simp only [Function.comp]
  cases hc : c r.id with
  | none =>
    simp only [Option.getD_none, merge_default]
    rw [hc]
    simp only [Option.getD_none, merge_default]
  | some p =>
    simp only [Option.getD_some]
    have hid : (r.merge p).id = r.id := by
      simp [merge_id, h r.id p hc]
    rw [hid, hc]
    simp only [Option.getD_some]
    exact merge_merge_self r p

/-- Witness for C6 amended: the one-entry cache `sampleCache` never sets
the id field, so double application equals single application on the
three-row sample. -/
theorem applyEdits_idem_of_no_id_override_witness :
    (∀ rid p, sampleCache rid = some p → p.id = none)
    ∧ applyEdits sampleCache (applyEdits sampleCache (sampleRows 3))
        = applyEdits sampleCache (sampleRows 3) := by
  have hp : ∀ rid p, sampleCache rid = some p → p.id = none := by
    intro rid p hp
    unfold sampleCache at hp
    split at hp
    · injection hp with h
      subst h
      rfl
    · exact Option.noConfusion hp
  exact ⟨hp, applyEdits_idem_of_no_id_override sampleCache (sampleRows 3) hp⟩

/-- C7: when the fetch fails with a non-2xx status (the thrown message is
"HTTP " followed by the status), a user-visible error message is set, the
visible page stays empty, `hasMore` stays at its pre-fetch default `true`,
and the loading flag resets to false. -/
theorem fetch_error_state (c : EditCache) (status : Nat) :
    (fetchFailure (initState c) (httpErrorMessage status)).isError
        = some (httpErrorMessage status)
    ∧ (fetchFailure (initState c) (httpErrorMessage status)).isError ≠ none
    ∧ (fetchFailure (initState c) (httpErrorMessage status)).data = []
    ∧ (fetchFailure (initState c) (httpErrorMessage status)).hasMore = true
    ∧ (fetchFailure (initState c) (httpErrorMessage status)).isLoading = false := by
  refine ⟨rfl, ?_, rfl, rfl, rfl⟩
  simp [fetchFailure, fetchStart, initState]

/-- A raw remote record with no recognized properties. -/
def sampleRemote : RemoteRow := {}

/-- C4 counterexample: the mapper reads the ambient clock for the
creation-timestamp field, so mapping the same raw record and index at two
clock readings one second apart yields different Records: the mapper is
not a pure function of (record, index) alone. -/
theorem mapRemote_not_clock_invariant :
    mapRemoteToCustomer 0 sampleRemote 0 ≠ mapRemoteToCustomer 1000 sampleRemote 0 := by
  decide

/-- C4 amended: the mapper is a pure function of (record, index, clock
reading): with the clock fixed, mapping twice yields identical Records,
and every field except the creation timestamp is independent of the
clock reading. -/
theorem mapRemote_clock_independent_fields (t1 t2 : Int) (item : RemoteRow) (idx : Nat) :
    (mapRemoteToCustomer t1 item idx).id = (mapRemoteToCustomer t2 item idx).id
    ∧ (mapRemoteToCustomer t1 item idx).name = (mapRemoteToCustomer t2 item idx).name
    ∧ (mapRemoteToCustomer t1 item idx).bio = (mapRemoteToCustomer t2 item idx).bio
    ∧ (mapRemoteToCustomer t1 item idx).language = (mapRemoteToCustomer t2 item idx).language
    ∧ (mapRemoteToCustomer t1 item idx).state = (mapRemoteToCustomer t2 item idx).state
    ∧ (mapRemoteToCustomer t1 item idx).version = (mapRemoteToCustomer t2 item idx).version
    ∧ (mapRemoteToCustomer t1 item idx).isNew = (mapRemoteToCustomer t2 item idx).isNew
    ∧ (t1 = t2 → mapRemoteToCustomer t1 item idx = mapRemoteToCustomer t2 item idx) := by
  refine ⟨rfl, rfl, rfl, rfl, rfl, rfl, rfl, ?_⟩
  rintro rfl
  rfl

/-- Witness for C4 amended at a fixed clock reading and at two distinct
clock readings. -/
theorem mapRemote_clock_independent_fields_witness :
    ((5 : Int) = 5 → mapRemoteToCustomer 5 sampleRemote 3 = mapRemoteToCustomer 5 sampleRemote 3)
    ∧ (mapRemoteToCustomer 0 sampleRemote 3).id = (mapRemoteToCustomer 1000 sampleRemote 3).id :=
  ⟨(mapRemote_clock_independent_fields 5 5 sampleRemote 3).2.2.2.2.2.2.2,
   (mapRemote_clock_independent_fields 0 1000 sampleRemote 3).1⟩

/-- C8: a commit whose candidate value fails the configured validation
predicate leaves the cell in the editing state, surfaces a non-empty
validation message, retains the rejected value in the input, and performs
no overlay write and no row update (the whole table state is unchanged). -/
theorem commit_validation_failure (v : String → Bool) (errorMessage : Option String)
    (rowId : String) (columnKey : ColKey) (cs : CellState) (s : TableState)
    (hval : v cs.value = false) (hedit : cs.editing = true) :
    (commit true (some v) errorMessage rowId columnKey cs s).1.editing = true
    ∧ (commit true (some v) errorMessage rowId columnKey cs s).1.value = cs.value
    ∧ (commit true (some v) errorMessage rowId columnKey cs s).1.error ≠ ""
    ∧ (commit true (some v) errorMessage rowId columnKey cs s).2 = s := by
  have hc : commit true (some v) errorMessage rowId columnKey cs s
      = ({ cs with error := jsOr errorMessage "Invalid value" }, s) := by
    simp [commit, hval]
  rw [hc]
  exact ⟨hedit, rfl, jsOr_ne_of_ne errorMessage "Invalid value" (by decide), rfl⟩

/-- Witness for C8: committing the lowercase region code "ca" against the
state-column validator changes nothing in the table state. -/
theorem commit_validation_failure_witness :
    stateValidate "ca" = false
    ∧ (⟨"ca", true, ""⟩ : CellState).editing = true
    ∧ (commit true (some stateValidate) (some "Use 2 uppercase letters") "r1"
        ColKey.state ⟨"ca", true, ""⟩ (initState emptyCache)).2 = initState emptyCache :=
  ⟨by decide, rfl,
   (commit_validation_failure stateValidate (some "Use 2 uppercase letters") "r1"
     ColKey.state ⟨"ca", true, ""⟩ (initState emptyCache) (by decide) rfl).2.2.2⟩

lemma stateValidate_eq (v : String) :
    stateValidate v =
      (((strTrim v).toList.length == 2) &&
        (strTrim v).toList.all (fun c => decide ('A' ≤ c) && decide (c ≤ 'Z'))) := by
  unfold stateValidate
  rcases (strTrim v).toList with _ | ⟨c1, _ | ⟨c2, _ | ⟨c3, l⟩⟩⟩ <;>
    simp [List.all, Bool.and_assoc]

/-- C9: the region-code commit with lowercase "ca" is rejected and leaves
the table state untouched, while "CA" is accepted and merged into the
overlay entry for that row; in general the region-code validator accepts
a value iff its trimmed form is exactly two ASCII uppercase letters. -/
theorem state_validator_and_commit (s : TableState) (rowId : String) :
    stateValidate "ca" = false
    ∧ stateValidate "CA" = true
    ∧ (commit true (some stateValidate) (some "Use 2 uppercase letters") rowId
        ColKey.state ⟨"ca", true, ""⟩ s).2 = s
    ∧ (commit true (some stateValidate) (some "Use 2 uppercase letters") rowId
        ColKey.state ⟨"ca", true, ""⟩ s).1.editing = true
    ∧ (((commit true (some stateValidate) (some "Use 2 uppercase letters") rowId
          ColKey.state ⟨"CA", true, ""⟩ s).2.editCache rowId).getD {}).get ColKey.state
        = some "CA"
    ∧ ∀ w : String, stateValidate w = true ↔
        ((strTrim w).length = 2 ∧ ∀ ch ∈ (strTrim w).toList, 'A' ≤ ch ∧ ch ≤ 'Z') := by
  have hca : stateValidate "ca" = false := by decide
  have hCA : stateValidate "CA" = true := by decide
  refine ⟨hca, hCA, ?_, ?_, ?_, ?_⟩
  · simp [commit, hca]
  · simp [commit, hca]
  · simp [commit, hCA, updateCell, PartialRow.get_set_self]
  · intro w
    rw [stateValidate_eq]
    have hlen : (strTrim w).length = (strTrim w).toList.length := rfl
    rw [hlen]
    simp [List.all_eq_true]

/-- Witness for C9 at a concrete table state and row id, together with an
instance of the validator characterization. -/
theorem state_validator_and_commit_witness :
    (commit true (some stateValidate) (some "Use 2 uppercase letters") "r1"
        ColKey.state ⟨"ca", true, ""⟩ (initState emptyCache)).2 = initState emptyCache
    ∧ (stateValidate "AB" = true ↔
        ((strTrim "AB").length = 2 ∧ ∀ ch ∈ (strTrim "AB").toList, 'A' ≤ ch ∧ ch ≤ 'Z')) :=
  ⟨(state_validator_and_commit (initState emptyCache) "r1").2.2.1,
   (state_validator_and_commit (initState emptyCache) "r1").2.2.2.2.2 "AB"⟩

lemma map_if_id (rowId : String) (k : ColKey) (v : String) (l : List CustomerRow)
    (hall : ∀ r ∈ l, r.id ≠ rowId) :
    l.map (fun r => if r.id = rowId then r.setCol k v else r) = l := by
  induction l with
  | nil => rfl
  | cons a l ih =>
    have ha : a.id ≠ rowId := hall a (List.mem_cons_self a l)
    simp only [List.map_cons, if_neg ha]
    rw [ih (fun r hr => hall r (List.mem_cons_of_mem a hr))]

/-- C10: `updateCell` preserves the visible page's length, leaves every
visible row whose id differs from the target unchanged at its position,
leaves overlay entries for all other row ids unchanged, leaves the page
entirely unchanged when no visible row has the target id, and in every
case creates (or keeps) an overlay entry for the target id. -/
theorem updateCell_frame (s : TableState) (rowId : String) (k : ColKey) (v : String) :
    (updateCell s rowId k v).data.length = s.data.length
    ∧ (∀ i : Nat, i < s.data.length → (s.data.getD i default).id ≠ rowId →
        (updateCell s rowId k v).data.getD i default = s.data.getD i default)
    ∧ (∀ rid : String, rid ≠ rowId →
        (updateCell s rowId k v).editCache rid = s.editCache rid)
    ∧ ((∀ r ∈ s.data, r.id ≠ rowId) → (updateCell s rowId k v).data = s.data)
    ∧ ((updateCell s rowId k v).editCache rowId).isSome = true := by
  refine ⟨by simp [updateCell], ?_, ?_, ?_, ?_⟩
  · intro i hi hne
    have hi2 : i < (updateCell s rowId k v).data.length := by simp [updateCell, hi]
    rw [List.getD_eq_getElem _ _ hi2, List.getD_eq_getElem _ _ hi]
    rw [List.getD_eq_getElem _ _ hi] at hne
    simp only [updateCell, List.getElem_map]
    exact if_neg hne
  · intro rid hrid
    simp [updateCell, hrid]
  · intro hall
    simp only [updateCell]
    exact map_if_id rowId k v s.data hall
  · simp [updateCell]

/-- A concrete three-row table state for the frame witnesses. -/
def sampleState : TableState :=
  fetchSuccess (initState emptyCache) (sampleRows 3)

/-- Witness for C10 at a concrete state: editing row "0" leaves row "1"
and the overlay entry of "q" untouched and creates an entry for "0". -/
theorem updateCell_frame_witness :
    (updateCell sampleState "0" ColKey.bio "z").data.getD 1 default
        = sampleState.data.getD 1 default
    ∧ (updateCell sampleState "0" ColKey.bio "z").editCache "q" = sampleState.editCache "q"
    ∧ ((updateCell sampleState "0" ColKey.bio "z").editCache "0").isSome = true :=
  ⟨(updateCell_frame sampleState "0" ColKey.bio "z").2.1 1 (by decide) (by decide),
   (updateCell_frame sampleState "0" ColKey.bio "z").2.2.1 "q" (by decide),
   (updateCell_frame sampleState "0" ColKey.bio "z").2.2.2.2⟩

/-- C1: for a full record set of 100 records with page size 40, the
initial page load yields a visible page of length 40 with hasMore true;
one loadNextPage yields 80 with hasMore true; another yields 100 with
hasMore false; and every further loadNextPage call leaves the visible
page length and the hasMore flag unchanged (exhaustion is a no-op). -/
theorem full_set_pagination (rows : List CustomerRow) (c : EditCache)
    (h : rows.length = 100) :
    let s0 := fetchSuccess (initState c) rows
    let s1 := loadMore s0
    let s2 := loadMore s1
    (s0.data.length = 40 ∧ s0.hasMore = true)
    ∧ (s1.data.length = 80 ∧ s1.hasMore = true)
    ∧ (s2.data.length = 100 ∧ s2.hasMore = false)
    ∧ (∀ n : Nat, (loadMore^[n] s2).data.length = 100
        ∧ (loadMore^[n] s2).hasMore = false) := by
  intro s0 s1 s2
  have hps : PAGE_SIZE = 40 := rfl
  have hs0a : s0.allRows = rows := rfl
  have hs0d : s0.data.length = 40 := by
    simp [s0, fetchSuccess, fetchStart, initState]
    omega
  have hs0m : s0.hasMore = true := by
    simp [s0, fetchSuccess, fetchStart, initState, hps, h]
  have hlt0 : s0.data.length < s0.allRows.length := by
    rw [hs0d, hs0a, h]
    omega
  have hs1a : s1.allRows = rows := by rw [show s1 = loadMore s0 from rfl, loadMore_allRows, hs0a]
  have hs1d : s1.data.length = 80 := by
    show (loadMore s0).data.length = 80
    rw [loadMore_data_length_of_lt s0 hlt0, hs0d, hs0a, h, hps]
    omega
  have hs1m : s1.hasMore = true := by
    show (loadMore s0).hasMore = true
    rw [loadMore_hasMore_of_lt s0 hlt0, hs0d, hs0a, h, hps]
    rw [if_neg (by omega)]
    exact hs0m
  have hlt1 : s1.data.length < s1.allRows.length := by
    rw [hs1d, hs1a, h]
    omega
  have hs2a : s2.allRows = rows := by rw [show s2 = loadMore s1 from rfl, loadMore_allRows, hs1a]
  have hs2d : s2.data.length = 100 := by
    show (loadMore s1).data.length = 100
    rw [loadMore_data_length_of_lt s1 hlt1, hs1d, hs1a, h, hps]
    omega
  have hs2m : s2.hasMore = false := by
    show (loadMore s1).hasMore = false
    rw [loadMore_hasMore_of_lt s1 hlt1, hs1d, hs1a, h, hps]
    rw [if_pos (by omega)]
  have hge : s2.allRows.length ≤ s2.data.length := by
    rw [hs2a, hs2d, h]
  have hfix : loadMore s2 = s2 := by
    rw [loadMore_of_exhausted s2 hge]
    exact setLoading_false_eq s2 (loadMore_isLoading s1)
  refine ⟨⟨hs0d, hs0m⟩, ⟨hs1d, hs1m⟩, ⟨hs2d, hs2m⟩, ?_⟩
  intro n
  rw [Function.iterate_fixed hfix n]
  exact ⟨hs2d, hs2m⟩

/-- Witness for C1 on a concrete 100-record set with the empty overlay. -/
theorem full_set_pagination_witness :
    (sampleRows 100).length = 100
    ∧ (let s0 := fetchSuccess (initState emptyCache) (sampleRows 100)
       let s1 := loadMore s0
       let s2 := loadMore s1
       (s0.data.length = 40 ∧ s0.hasMore = true)
       ∧ (s1.data.length = 80 ∧ s1.hasMore = true)
       ∧ (s2.data.length = 100 ∧ s2.hasMore = false)
       ∧ (∀ n : Nat, (loadMore^[n] s2).data.length = 100
           ∧ (loadMore^[n] s2).hasMore = false)) :=
  ⟨by simp [sampleRows],
   full_set_pagination (sampleRows 100) emptyCache (by simp [sampleRows])⟩

/-- C3 counterexample: on a 41-record full set whose first page of 40 is
loaded, prepending one locally created row changes what the next
loadNextPage does: with the new row the call is a no-op that leaves
hasMore true (the 41st record is never loaded), while without it the call
loads the last record and clears hasMore.  New rows therefore do count
against the pagination offset. -/
theorem new_rows_shift_pagination_cex :
    (loadMore (addNewRow (fetchSuccess (initState emptyCache) (sampleRows 41)) 0)).hasMore
       = true
    ∧ (loadMore (fetchSuccess (initState emptyCache) (sampleRows 41))).hasMore = false
    ∧ (loadMore (addNewRow (fetchSuccess (initState emptyCache) (sampleRows 41)) 0)).data.length
       = 41
    ∧ (loadMore (fetchSuccess (initState emptyCache) (sampleRows 41))).data.length = 41 := by
  refine ⟨by decide, by decide, by decide, by decide⟩

/-- C3 amended: locally created rows are not drawn from the full record
set, but they do count toward the pagination offset: with k new rows
prepended, loadNextPage consumes the slice of the full record set
starting at (previously loaded records + k), i.e. shifted by k relative
to k = 0, and the exhaustion check for hasMore likewise uses the visible
length including the k new rows. -/
theorem loadMore_slice_after_new_rows (s : TableState) (ns : List Int) :
    (loadMore (addNewRowsList s ns)).data.drop (s.data.length + ns.length)
      = applyEdits s.editCache
          ((s.allRows.drop (s.data.length + ns.length)).take PAGE_SIZE)
    ∧ (loadMore (addNewRowsList s ns)).hasMore =
        (if s.allRows.length ≤ s.data.length + ns.length then s.hasMore
         else if s.allRows.length ≤ s.data.length + ns.length
                + min PAGE_SIZE (s.allRows.length - (s.data.length + ns.length))
              then false else s.hasMore) := by
  set t := addNewRowsList s ns with ht
  have hta : t.allRows = s.allRows := addNewRowsList_allRows s ns
  have htc : t.editCache = s.editCache := addNewRowsList_editCache s ns
  have hth : t.hasMore = s.hasMore := addNewRowsList_hasMore s ns
  have htd : t.data.length = s.data.length + ns.length := addNewRowsList_data_length s ns
  by_cases hc : s.allRows.length ≤ s.data.length + ns.length
  · have hge : t.allRows.length ≤ t.data.length := by rw [hta, htd]; exact hc
    rw [loadMore_of_exhausted t hge]
    constructor
    · show t.data.drop (s.data.length + ns.length) = _
      rw [← htd, List.drop_length]
      have hnil : s.allRows.drop t.data.length = [] := by
        rw [htd]
        exact List.drop_eq_nil_of_le hc
      rw [hnil]
      simp [applyEdits]
    · show t.hasMore = _
      rw [if_pos hc, hth]
  · push_neg at hc
    have hlt : t.data.length < t.allRows.length := by rw [hta, htd]; exact hc
    constructor
    · rw [loadMore_data_of_lt t hlt, ← htd, List.drop_left, hta, htc]
    · rw [loadMore_hasMore_of_lt t hlt, hta, hth, htd,
        if_neg (not_le.mpr hc)]

end MiniTable
